import Mathlib

/-!
# LogWatcher controller

A shallow embedding of `api/v1alpha1/logwatcher_types.go` and
`controllers/logwatcher_controller.go`.

The API server, the log stream, the logger and the `regexp` package are not part
of the repository.  Their answers are parameters (`Client`, `RegexpLib`), and
every interaction of a reconcile cycle with them is recorded, in program order,
in the list of `Call`s of the cycle's `Outcome`.
-/

namespace KubeController

/-! ## api/v1alpha1/logwatcher_types.go -/

/-- JobConfig defines configuration for creating Kubernetes Jobs. -/
structure JobConfig where
  JobTemplate : String
  Timeout : Int
  Retries : Int
deriving DecidableEq, Repr

/-- RollingUpdateConfig defines configuration for rolling updates. -/
structure RollingUpdateConfig where
  DeploymentName : String
  MaxUnavailable : Int
  MaxSurge : Int
deriving DecidableEq, Repr

/-- CleanupConfig defines configuration for cleanup operations. -/
structure CleanupConfig where
  Timeout : Int
  Resources : List String
deriving DecidableEq, Repr

/-- LogWatcherActions defines what actions to take when the pattern is matched. -/
structure LogWatcherActions where
  RestartPod : Bool := false
  CreateJob : Option JobConfig := none
  RollingUpdate : Option RollingUpdateConfig := none
  Cleanup : Option CleanupConfig := none
deriving DecidableEq, Repr

/-- SlackConfig defines Slack alerting configuration. -/
structure SlackConfig where
  WebhookURL : String
  Channel : String
  Username : String
deriving DecidableEq, Repr

/-- EmailConfig defines email alerting configuration. -/
structure EmailConfig where
  SMTPHost : String
  SMTPPort : Int
  Username : String
  Password : String
  From : String
  To : String
  Subject : String
deriving DecidableEq, Repr

/-- WebhookConfig defines webhook alerting configuration. -/
structure WebhookConfig where
  URL : String
  Headers : List (String × String)
  Method : String
deriving DecidableEq, Repr

/-- AlertingConfig defines alerting configuration. -/
structure AlertingConfig where
  Slack : Option SlackConfig := none
  Email : Option EmailConfig := none
  Webhook : Option WebhookConfig := none
deriving DecidableEq, Repr

/-- ScalingConfig defines scaling configuration. -/
structure ScalingConfig where
  MinReplicas : Int
  MaxReplicas : Int
  ScaleUpThreshold : Int
  ScaleDownThreshold : Int
  DeploymentName : String
deriving DecidableEq, Repr

/-- MetricsConfig defines metrics configuration. -/
structure MetricsConfig where
  Enabled : Bool
  Port : Int
  Path : String
deriving DecidableEq, Repr

/-- LogWatcherSpec defines the desired state of LogWatcher.  The `int32` fields
are integers (the controller does no arithmetic on them); a Go map is the list
of its entries; a zero value stands for an omitted field. -/
structure LogWatcherSpec where
  PodNamespace : String := ""
  PodLabelSelector : List (String × String) := []
  MatchPattern : String := ""
  Actions : LogWatcherActions := {}
  Alerting : Option AlertingConfig := none
  Scaling : Option ScalingConfig := none
  Annotations : List (String × String) := []
  Metrics : Option MetricsConfig := none
  ReconcileInterval : Int := 0
  TailLines : Int := 0
deriving DecidableEq, Repr

/-- One `metav1.Condition` (`Type_` is its field `Type`). -/
structure Condition where
  Type_ : String
  Status : String
  Reason : String
  Message : String
  LastTransitionTime : Int
deriving DecidableEq, Repr

/-- LogWatcherStatus defines the observed state of LogWatcher. -/
structure LogWatcherStatus where
  Conditions : List Condition := []
  LastReconcileTime : Int := 0
  MatchesCount : Int := 0
  PodsRestarted : Int := 0
  AlertsSent : Int := 0
  JobsCreated : Int := 0
  ScalingEvents : Int := 0
deriving DecidableEq, Repr

/-- LogWatcher is the Schema for the logwatchers API (`Name` and `Namespace`
are those of its `ObjectMeta`). -/
structure LogWatcher where
  Name : String := ""
  Namespace : String := ""
  Spec : LogWatcherSpec := {}
  Status : LogWatcherStatus := {}
deriving DecidableEq, Repr

/-! ## What the controller talks to -/

/-- An error value returned by an external call. -/
inductive Err where
  | notFound
  | timeout
  | other (msg : String)
deriving DecidableEq, Repr

/-- The test `kerrors.IsNotFound`. -/
def IsNotFound : Err → Bool
  | .notFound => true
  | _ => false

/-- The type `client.ObjectKey` (`types.NamespacedName`). -/
structure ObjectKey where
  Name : String
  Namespace : String
deriving DecidableEq, Repr

/-- The fields of `corev1.Pod` that identify it. -/
structure Pod where
  Name : String
  Namespace : String
  UID : String := ""
deriving DecidableEq, Repr

/-- The type `corev1.PodLogOptions`; only `TailLines` is ever set. -/
structure PodLogOptions where
  TailLines : Option Int := none
deriving DecidableEq, Repr

/-- The REST request built by `getRecentLogs`. -/
structure LogRequest where
  Namespace : String
  Name : String
  Resource : String
  SubResource : String
  Params : PodLogOptions
deriving DecidableEq, Repr

/-- What an opened log stream gives a `bufio.Scanner`: the successive values of
`scanner.Text()` and the final `scanner.Err()`. -/
structure LogStream where
  lines : List String
  err : Option Err := none
deriving DecidableEq, Repr

/-- The answers of the API server during one reconcile cycle, one function per
call the controller makes. -/
structure Client where
  Get : ObjectKey → Except Err LogWatcher
  List : String → List (String × String) → Except Err (List Pod)
  GetPod : ObjectKey → Except Err Pod
  Stream : LogRequest → Except Err LogStream
  Delete : Pod → Option Err

/-- The part of package `regexp` the controller uses. -/
structure RegexpLib where
  Regexp : Type
  Compile : String → Except Err Regexp
  MatchString : Regexp → String → Bool

/-- One interaction of the controller with its environment.  `update` and
`statusUpdate` are the writes `client.Client` offers for a LogWatcher; they are
listed so that the effect of a cycle on the stored resource can be stated. -/
inductive Call where
  | get (key : ObjectKey)
  | list (ns : String) (sel : List (String × String))
  | compile (src : String)
  | getPod (key : ObjectKey)
  | stream (req : LogRequest)
  | matchString (text : String)
  | delete (pod : Pod)
  | logError (msg : String) (pod : Option String)
  | logInfo (msg : String) (pod : Option String)
  | update (lw : LogWatcher)
  | statusUpdate (lw : LogWatcher)
deriving DecidableEq, Repr

/-- The type `ctrl.Result`; `RequeueAfter` is a `time.Duration`, in nanoseconds. -/
structure Result where
  Requeue : Bool := false
  RequeueAfter : Int := 0
deriving DecidableEq, Repr

/-- The constant `time.Second`. -/
def Second : Int := 1000000000

/-- What one call of `Reconcile` returns, with the calls it made. -/
structure Outcome where
  result : Result
  err : Option Err
  calls : List Call
deriving DecidableEq, Repr

/-! ## controllers/logwatcher_controller.go -/

/-- The request `getRecentLogs` builds for a pod. -/
def logRequest (pod : Pod) : LogRequest :=
  let podLogOpts : PodLogOptions := { TailLines := some 100 }
  { Namespace := pod.Namespace
    Name := pod.Name
    Resource := "pods"
    SubResource := "log"
    Params := podLogOpts }

/-- The method `getRecentLogs`: the returned text, the returned error and the
call made. -/
def getRecentLogs (r : Client) (pod : Pod) : (String × Option Err) × List Call :=
  let req := logRequest pod
  match r.Stream req with
  | .error err => (("", some err), [Call.stream req])
  | .ok stream => ((String.intercalate "\n" stream.lines, stream.err), [Call.stream req])

/-- The body of the loop of `Reconcile` for one item of the pod list. -/
def reconcilePod (lib : RegexpLib) (r : Client) (pattern : lib.Regexp) (pod : Pod) :
    List Call :=
  let req : ObjectKey := { Name := pod.Name, Namespace := pod.Namespace }
  match r.GetPod req with
  | .error _ => [Call.getPod req]
  | .ok p =>
    match getRecentLogs r p with
    | ((_, some _), cs) =>
      Call.getPod req :: cs ++ [Call.logError "Could not fetch logs" (some pod.Name)]
    | ((logs, none), cs) =>
      if lib.MatchString pattern logs then
        Call.getPod req :: cs ++
          [Call.matchString logs,
           Call.logInfo "Pattern matched, deleting pod" (some pod.Name),
           Call.delete p] ++
          (match r.Delete p with
           | some _ => [Call.logError "Failed to delete pod" (some pod.Name)]
           | none => [])
      else
        Call.getPod req :: cs ++ [Call.matchString logs]

/-- The loop `for _, pod := range podList.Items`. -/
def reconcilePods (lib : RegexpLib) (r : Client) (pattern : lib.Regexp) :
    List Pod → List Call
  | [] => []
  | pod :: rest => reconcilePod lib r pattern pod ++ reconcilePods lib r pattern rest

/-- The method `Reconcile`. -/
def Reconcile (lib : RegexpLib) (r : Client) (req : ObjectKey) : Outcome :=
  match r.Get req with
  | .error err =>
    if IsNotFound err then
      { result := {}, err := none, calls := [Call.get req] }
    else
      { result := {}, err := some err, calls := [Call.get req] }
  | .ok lw =>
    let sel := lw.Spec.PodLabelSelector
    match r.List lw.Spec.PodNamespace sel with
    | .error err =>
      { result := {}, err := some err
        calls := [Call.get req, Call.list lw.Spec.PodNamespace sel] }
    | .ok podList =>
      match lib.Compile lw.Spec.MatchPattern with
      | .error _ =>
        { result := {}, err := none
          calls := [Call.get req, Call.list lw.Spec.PodNamespace sel,
                    Call.compile lw.Spec.MatchPattern,
                    Call.logError "Invalid regex pattern" none] }
      | .ok pattern =>
        { result := { RequeueAfter := 60 * Second }, err := none
          calls := [Call.get req, Call.list lw.Spec.PodNamespace sel,
                    Call.compile lw.Spec.MatchPattern] ++
                   reconcilePods lib r pattern podList }

/-! ## Reading a cycle's calls -/

/-- The pod a call asks the API server to delete, if the call is a Delete. -/
def deleted : Call → Option Pod
  | .delete p => some p
  | _ => none

/-- The calls by which a cycle evaluates or acts on an instance: the per-pod
Get, the log fetch, the match test and the Delete. -/
def touchesInstance : Call → Bool
  | .getPod _ => true
  | .stream _ => true
  | .matchString _ => true
  | .delete _ => true
  | _ => false

/-- The calls that write a LogWatcher. -/
def writesLogWatcher : Call → Bool
  | .update _ => true
  | .statusUpdate _ => true
  | _ => false

/-- The effect of one call on the LogWatcher kept by the resource store.  The
resource has a status subresource (`+kubebuilder:subresource:status`): `update`
replaces everything but the status, `statusUpdate` replaces the status, and a
call that is not a write of this object leaves it as it is. -/
def applyCall (stored : LogWatcher) : Call → LogWatcher
  | .update lw =>
    if lw.Name = stored.Name ∧ lw.Namespace = stored.Namespace then
      { lw with Status := stored.Status }
    else stored
  | .statusUpdate lw =>
    if lw.Name = stored.Name ∧ lw.Namespace = stored.Namespace then
      { stored with Status := lw.Status }
    else stored
  | _ => stored

/-- The stored LogWatcher after a list of calls. -/
def applyCalls (stored : LogWatcher) (cs : List Call) : LogWatcher :=
  cs.foldl applyCall stored

/-- The stored LogWatcher after a sequence of reconcile cycles, each with its
own answers of the API server and its own request. -/
def runCycles (lib : RegexpLib) : List (Client × ObjectKey) → LogWatcher → LogWatcher
  | [], stored => stored
  | (r, req) :: rest, stored =>
    runCycles lib rest (applyCalls stored (Reconcile lib r req).calls)

/-- Whether the step of the loop for `pod` fails: the Get fails, the log fetch
returns an error, or the pattern matches and the Delete fails. -/
def stepFails (lib : RegexpLib) (r : Client) (pattern : lib.Regexp) (pod : Pod) : Bool :=
  match r.GetPod { Name := pod.Name, Namespace := pod.Namespace } with
  | .error _ => true
  | .ok p =>
    match (getRecentLogs r p).1 with
    | (_, some _) => true
    | (logs, none) => lib.MatchString pattern logs && (r.Delete p).isSome

/-- The pod a list item gets deleted, read off the answers of the API server:
the object its Get returns, when the log fetch succeeds and the fetched text
matches. -/
def restartOf (lib : RegexpLib) (r : Client) (pattern : lib.Regexp) (pod : Pod) :
    Option Pod :=
  match r.GetPod { Name := pod.Name, Namespace := pod.Namespace } with
  | .error _ => none
  | .ok p =>
    match r.Stream (logRequest p) with
    | .error _ => none
    | .ok stream =>
      if stream.err = none ∧ lib.MatchString pattern (String.intercalate "\n" stream.lines) = true
      then some p else none

/-- The API server `r`, except that it lists the pods `pods`. -/
def withPods (r : Client) (pods : List Pod) : Client :=
  { r with List := fun _ _ => .ok pods }

/-! ## Concrete environments -/

/-- Whether `pat` occurs in `text` as a block of consecutive characters. -/
def occursIn (pat : List Char) : List Char → Bool
  | [] => pat.isEmpty
  | c :: cs => (c :: cs).take pat.length == pat || occursIn pat cs

/-- The characters with a special meaning in a regular expression. -/
def metaChars : List Char :=
  ['\\', '.', '+', '*', '?', '(', ')', '|', '[', ']', '\x7b', '\x7d', '^', '$']

/-- A regexp engine for concrete runs.  It compiles the patterns without a
special character, which match a text exactly when they occur in it, as in
package `regexp`; it rejects every other pattern, among them the unbalanced
`(` that `regexp` rejects too. -/
def literalRegexp : RegexpLib where
  Regexp := String
  Compile := fun src =>
    if src.toList.any (fun c => metaChars.contains c) then
      .error (.other "error parsing regexp")
    else .ok src
  MatchString := fun re text => occursIn re.toList text.toList

/-- The key of the LogWatcher of the concrete runs. -/
def watcherKey : ObjectKey := { Name := "oom-watcher", Namespace := "default" }

/-- A LogWatcher that watches for `OOMKilled`. -/
def oomWatcher : LogWatcher :=
  { Name := "oom-watcher", Namespace := "default"
    Spec := { PodNamespace := "prod", PodLabelSelector := [("app", "web")]
              MatchPattern := "OOMKilled", Actions := { RestartPod := true }
              ReconcileInterval := 0, TailLines := 100 }
    Status := { MatchesCount := 3, PodsRestarted := 2 } }

/-- Three pods of namespace `prod`. -/
def podA : Pod := { Name := "web-a", Namespace := "prod", UID := "1" }
def podB : Pod := { Name := "web-b", Namespace := "prod", UID := "2" }
def podC : Pod := { Name := "web-c", Namespace := "prod", UID := "3" }

/-- An API server that holds `lw` under `watcherKey` and the pods `pods`, opens
the log stream of a pod as `logs` says and answers a Delete as `del` says. -/
def clusterOf (lw : LogWatcher) (pods : List Pod) (logs : String → Except Err LogStream)
    (del : Pod → Option Err) : Client where
  Get := fun key => if key = watcherKey then .ok lw else .error .notFound
  List := fun _ _ => .ok pods
  GetPod := fun key =>
    match pods.find? (fun p => p.Name == key.Name && p.Namespace == key.Namespace) with
    | some p => .ok p
    | none => .error .notFound
  Stream := fun req => logs req.Name
  Delete := del

/-- A cycle in which the log fetch of `web-a` times out, `web-b` logs the pattern, `web-c` does not. -/
def timeoutCluster : Client :=
  clusterOf oomWatcher [podA, podB, podC]
    (fun n =>
      if n = "web-a" then .error .timeout
      else if n = "web-b" then .ok { lines := ["starting", "OOMKilled"] }
      else .ok { lines := ["ready"] })
    (fun _ => none)

/-- A cycle in which `web-a` logs the two lines `a` and `b`. -/
def twoLineCluster : Client :=
  clusterOf { oomWatcher with Spec := { oomWatcher.Spec with MatchPattern := "a\nb" } } [podA]
    (fun _ => .ok { lines := ["a", "b"] })
    (fun _ => none)

/-- A LogWatcher whose pattern is the unbalanced `(`. -/
def brokenWatcher : LogWatcher :=
  { oomWatcher with Spec := { oomWatcher.Spec with MatchPattern := "(" } }

/-- A cycle of `brokenWatcher` in which a pod logs the pattern's text. -/
def brokenCluster : Client :=
  clusterOf brokenWatcher [podA, podB]
    (fun _ => .ok { lines := ["(", "OOMKilled"] })
    (fun _ => none)

/-- A cycle of `brokenWatcher` in which the pods cannot be listed. -/
def brokenListCluster : Client :=
  { brokenCluster with List := fun _ _ => .error .timeout }

/-- A cycle of `oomWatcher` in which the pods cannot be listed. -/
def listFailsCluster : Client :=
  { timeoutCluster with List := fun _ _ => .error (.other "connection refused") }

/-- The calls of a sequence of consecutive reconcile cycles, in order. -/
def callsOfCycles (lib : RegexpLib) : List (Client × ObjectKey) → List Call
  | [] => []
  | (r, req) :: rest => (Reconcile lib r req).calls ++ callsOfCycles lib rest

/-- A cycle in which `web-a` logs the pattern and its Delete fails, so that the
pod is still there, logging the same, in the next cycle. -/
def deleteFailsCluster : Client :=
  clusterOf oomWatcher [podA]
    (fun _ => .ok { lines := ["OOMKilled"] })
    (fun _ => some (.other "forbidden"))

/-- A LogWatcher like `oomWatcher` with no action configured, a reconcile
interval of 30 s and 50 tail lines. -/
def quietWatcher : LogWatcher :=
  { oomWatcher with
    Spec := { oomWatcher.Spec with
              Actions := { RestartPod := false }, ReconcileInterval := 30, TailLines := 50 } }

/-- A cycle of `quietWatcher` in which `web-a` logs the pattern. -/
def quietCluster : Client :=
  clusterOf quietWatcher [podA]
    (fun _ => .ok { lines := ["OOMKilled"] })
    (fun _ => none)

/-! ## Lemmas on the loop -/

theorem reconcilePods_append (lib : RegexpLib) (r : Client) (pattern : lib.Regexp)
    (xs ys : List Pod) :
    reconcilePods lib r pattern (xs ++ ys) =
      reconcilePods lib r pattern xs ++ reconcilePods lib r pattern ys := by
  induction xs with
  | nil => simp [reconcilePods]
  | cons x xs ih => simp [reconcilePods, ih]

theorem reconcilePod_subset (lib : RegexpLib) (r : Client) (pattern : lib.Regexp)
    (pod : Pod) (pods : List Pod) (hmem : pod ∈ pods) (c : Call)
    (hc : c ∈ reconcilePod lib r pattern pod) : c ∈ reconcilePods lib r pattern pods := by
  induction pods with
  | nil => cases hmem
  | cons x xs ih =>
    simp only [reconcilePods, List.mem_append]
    rcases List.mem_cons.mp hmem with h | h
    · subst h; exact Or.inl hc
    · exact Or.inr (ih h)

theorem getPod_mem_reconcilePod (lib : RegexpLib) (r : Client) (pattern : lib.Regexp)
    (pod : Pod) :
    Call.getPod { Name := pod.Name, Namespace := pod.Namespace } ∈
      reconcilePod lib r pattern pod := by
  unfold reconcilePod
  simp only []
  split
  · simp
  · split
    · simp
    · split <;> simp

theorem delete_mem_reconcilePod (lib : RegexpLib) (r : Client) (pattern : lib.Regexp)
    (pod p : Pod) (hp : r.GetPod { Name := pod.Name, Namespace := pod.Namespace } = .ok p)
    (hlogs : (getRecentLogs r p).1.2 = none)
    (hmatch : lib.MatchString pattern (getRecentLogs r p).1.1 = true) :
    Call.delete p ∈ reconcilePod lib r pattern pod := by
  unfold reconcilePod
  simp only [hp]
  split
  · rename_i h; rw [h] at hlogs; cases hlogs
  · rename_i logs cs h
    rw [h] at hmatch
    simp at hmatch
    simp [hmatch]

theorem Reconcile_completes (lib : RegexpLib) (r : Client) (req : ObjectKey)
    (lw : LogWatcher) (pods : List Pod) (pattern : lib.Regexp)
    (hget : r.Get req = .ok lw)
    (hlist : r.List lw.Spec.PodNamespace lw.Spec.PodLabelSelector = .ok pods)
    (hcomp : lib.Compile lw.Spec.MatchPattern = .ok pattern) :
    Reconcile lib r req =
      { result := { RequeueAfter := 60 * Second }, err := none
        calls := [Call.get req, Call.list lw.Spec.PodNamespace lw.Spec.PodLabelSelector,
                  Call.compile lw.Spec.MatchPattern] ++ reconcilePods lib r pattern pods } := by
  simp [Reconcile, hget, hlist, hcomp]

theorem reconcilePods_withPods (lib : RegexpLib) (r : Client) (pattern : lib.Regexp)
    (listed pods : List Pod) :
    reconcilePods lib (withPods r listed) pattern pods = reconcilePods lib r pattern pods := by
  induction pods with
  | nil => rfl
  | cons x xs ih =>
    simp only [reconcilePods, ih]
    rfl

/-! ## Failure isolation -/

/-- C1.  When the step of one listed pod fails (its Get fails, its log fetch
returns an error, or its Delete fails), the cycle still returns a nil error and
the 60 s requeue, every other listed pod still gets its Get, every other pod
whose Get and log fetch succeed and whose logs match still gets its Delete, and
the calls of the cycle are those of the cycle without the failing pod, with the
calls of the failing pod's own step inserted. -/
theorem Reconcile_failure_isolation (lib : RegexpLib) (r : Client) (req : ObjectKey)
    (lw : LogWatcher) (pattern : lib.Regexp) (before after : List Pod) (bad : Pod)
    (hget : r.Get req = .ok lw)
    (hlist : r.List lw.Spec.PodNamespace lw.Spec.PodLabelSelector = .ok (before ++ bad :: after))
    (hcomp : lib.Compile lw.Spec.MatchPattern = .ok pattern)
    (_hbad : stepFails lib r pattern bad = true) :
    (Reconcile lib r req).err = none ∧
    (Reconcile lib r req).result = { Requeue := false, RequeueAfter := 60 * Second } ∧
    (∀ pod ∈ before ++ after,
      Call.getPod { Name := pod.Name, Namespace := pod.Namespace } ∈
        (Reconcile lib r req).calls) ∧
    (∀ pod ∈ before ++ after, ∀ p : Pod,
      r.GetPod { Name := pod.Name, Namespace := pod.Namespace } = .ok p →
      (getRecentLogs r p).1.2 = none →
      lib.MatchString pattern (getRecentLogs r p).1.1 = true →
      Call.delete p ∈ (Reconcile lib r req).calls) ∧
    (∃ pre post : List Call,
      (Reconcile lib r req).calls = pre ++ reconcilePod lib r pattern bad ++ post ∧
      (Reconcile lib (withPods r (before ++ after)) req).calls = pre ++ post) := by
  have hrun := Reconcile_completes lib r req lw (before ++ bad :: after) pattern hget hlist hcomp
  have hrun2 := Reconcile_completes lib (withPods r (before ++ after)) req lw (before ++ after)
    pattern hget rfl hcomp
  have hsub : ∀ pod ∈ before ++ after, pod ∈ before ++ bad :: after := by
    intro pod hpod
    rcases List.mem_append.mp hpod with h | h
    · exact List.mem_append.mpr (Or.inl h)
    · exact List.mem_append.mpr (Or.inr (List.mem_cons_of_mem _ h))
  refine ⟨by rw [hrun], by rw [hrun], ?_, ?_, ?_⟩
  · intro pod hpod
    rw [hrun]
    exact List.mem_append.mpr (Or.inr (reconcilePod_subset lib r pattern pod _ (hsub pod hpod) _
      (getPod_mem_reconcilePod lib r pattern pod)))
  · intro pod hpod p hp hlogs hmatch
    rw [hrun]
    exact List.mem_append.mpr (Or.inr (reconcilePod_subset lib r pattern pod _ (hsub pod hpod) _
      (delete_mem_reconcilePod lib r pattern pod p hp hlogs hmatch)))
  · refine ⟨[Call.get req, Call.list lw.Spec.PodNamespace lw.Spec.PodLabelSelector,
        Call.compile lw.Spec.MatchPattern] ++ reconcilePods lib r pattern before,
      reconcilePods lib r pattern after, ?_, ?_⟩
    · rw [hrun, reconcilePods_append]
      simp [reconcilePods]
    · rw [hrun2, reconcilePods_withPods, reconcilePods_append]
      simp

/-- C1 at a concrete run: `web-a` times out and `web-b`, listed after it, is
deleted all the same. -/
theorem Reconcile_failure_isolation_witness :
    stepFails literalRegexp timeoutCluster "OOMKilled" podA = true ∧
    (Reconcile literalRegexp timeoutCluster watcherKey).err = none ∧
    Call.delete podB ∈ (Reconcile literalRegexp timeoutCluster watcherKey).calls :=
  ⟨by decide,
   (Reconcile_failure_isolation literalRegexp timeoutCluster watcherKey oomWatcher "OOMKilled"
      [] [podB, podC] podA rfl rfl rfl (by decide)).1,
   (Reconcile_failure_isolation literalRegexp timeoutCluster watcherKey oomWatcher "OOMKilled"
      [] [podB, podC] podA rfl rfl rfl (by decide)).2.2.2.1
      podB (by decide) podB rfl (by decide) (by decide)⟩

/-! ## Matching -/

theorem reconcilePod_fetched (lib : RegexpLib) (r : Client) (pattern : lib.Regexp)
    (pod p : Pod) (lines : List String)
    (hp : r.GetPod { Name := pod.Name, Namespace := pod.Namespace } = .ok p)
    (hstream : r.Stream (logRequest p) = .ok { lines := lines, err := none }) :
    reconcilePod lib r pattern pod =
      if lib.MatchString pattern (String.intercalate "\n" lines) = true then
        [Call.getPod { Name := pod.Name, Namespace := pod.Namespace },
         Call.stream (logRequest p),
         Call.matchString (String.intercalate "\n" lines),
         Call.logInfo "Pattern matched, deleting pod" (some pod.Name),
         Call.delete p] ++
        (match r.Delete p with
         | some _ => [Call.logError "Failed to delete pod" (some pod.Name)]
         | none => [])
      else
        [Call.getPod { Name := pod.Name, Namespace := pod.Namespace },
         Call.stream (logRequest p),
         Call.matchString (String.intercalate "\n" lines)] := by
  simp [reconcilePod, getRecentLogs, hp, hstream]

/-- C2.  When the log stream of a pod yields the lines `lines`, `getRecentLogs`
returns them joined with one newline between consecutive lines, that joined
text is the one and only text the pattern is tested against, and the pod counts
as matched (the match is logged and the Delete issued) exactly when the pattern
matches the joined text. -/
theorem Reconcile_matches_joined_text (lib : RegexpLib) (r : Client) (pattern : lib.Regexp)
    (pod p : Pod) (lines : List String)
    (hp : r.GetPod { Name := pod.Name, Namespace := pod.Namespace } = .ok p)
    (hstream : r.Stream (logRequest p) = .ok { lines := lines, err := none }) :
    (getRecentLogs r p).1 = (String.intercalate "\n" lines, none) ∧
    (∀ text : String, Call.matchString text ∈ reconcilePod lib r pattern pod ↔
      text = String.intercalate "\n" lines) ∧
    (Call.logInfo "Pattern matched, deleting pod" (some pod.Name) ∈
        reconcilePod lib r pattern pod ↔
      lib.MatchString pattern (String.intercalate "\n" lines) = true) ∧
    (Call.delete p ∈ reconcilePod lib r pattern pod ↔
      lib.MatchString pattern (String.intercalate "\n" lines) = true) := by
  rw [reconcilePod_fetched lib r pattern pod p lines hp hstream]
  refine ⟨by simp [getRecentLogs, hstream], ?_, ?_, ?_⟩
  · intro text
    by_cases hm : lib.MatchString pattern (String.intercalate "\n" lines) = true
    · cases hd : r.Delete p <;> simp [hm]
    · simp [hm]
  · by_cases hm : lib.MatchString pattern (String.intercalate "\n" lines) = true
    · cases hd : r.Delete p <;> simp [hm]
    · simp [hm]
  · by_cases hm : lib.MatchString pattern (String.intercalate "\n" lines) = true
    · cases hd : r.Delete p <;> simp [hm]
    · simp [hm]

/-- C2 at a concrete run: the pattern `a`, newline, `b` matches neither the
line `a` nor the line `b`, and the pod that logged these two lines is deleted. -/
theorem Reconcile_matches_joined_text_witness :
    String.intercalate "\n" ["a", "b"] = "a\nb" ∧
    literalRegexp.MatchString "a\nb" "a" = false ∧
    literalRegexp.MatchString "a\nb" "b" = false ∧
    Call.delete podA ∈ reconcilePod literalRegexp twoLineCluster "a\nb" podA ∧
    Call.delete podA ∈ (Reconcile literalRegexp twoLineCluster watcherKey).calls :=
  ⟨by decide, by decide, by decide,
   (Reconcile_matches_joined_text literalRegexp twoLineCluster "a\nb" podA podA ["a", "b"]
      rfl rfl).2.2.2.mpr (by decide),
   by decide⟩

/-! ## Invalid pattern -/

theorem applyCalls_of_no_write (stored : LogWatcher) (cs : List Call)
    (h : ∀ c ∈ cs, writesLogWatcher c = false) : applyCalls stored cs = stored := by
  unfold applyCalls
  induction cs with
  | nil => rfl
  | cons c cs ih =>
    have hc : applyCall stored c = stored := by
      have := h c (List.mem_cons_self _ _)
      cases c <;> simp_all [applyCall, writesLogWatcher]
    rw [List.foldl_cons, hc]
    exact ih (fun c hmem => h c (List.mem_cons_of_mem _ hmem))

/-- C3.  In a cycle of a LogWatcher whose pattern does not compile, whatever the
pods selected (whether or not they can be listed), no call evaluates or acts on
an instance (no per-pod Get, no log fetch, no match test, no Delete), and the
stored LogWatcher, its status counters among the rest, is left as it was. -/
theorem Reconcile_invalid_pattern_evaluates_nothing (lib : RegexpLib) (r : Client)
    (req : ObjectKey) (lw stored : LogWatcher) (e : Err)
    (hget : r.Get req = .ok lw)
    (hcomp : lib.Compile lw.Spec.MatchPattern = .error e) :
    (∀ c ∈ (Reconcile lib r req).calls, touchesInstance c = false) ∧
    (∀ p : Pod, Call.delete p ∉ (Reconcile lib r req).calls) ∧
    applyCalls stored (Reconcile lib r req).calls = stored ∧
    (applyCalls stored (Reconcile lib r req).calls).Status.MatchesCount =
      stored.Status.MatchesCount ∧
    (applyCalls stored (Reconcile lib r req).calls).Status.PodsRestarted =
      stored.Status.PodsRestarted ∧
    (applyCalls stored (Reconcile lib r req).calls).Status.AlertsSent =
      stored.Status.AlertsSent ∧
    (applyCalls stored (Reconcile lib r req).calls).Status.JobsCreated =
      stored.Status.JobsCreated ∧
    (applyCalls stored (Reconcile lib r req).calls).Status.ScalingEvents =
      stored.Status.ScalingEvents := by
  have hcalls : (Reconcile lib r req).calls =
        [Call.get req, Call.list lw.Spec.PodNamespace lw.Spec.PodLabelSelector] ∨
      (Reconcile lib r req).calls =
        [Call.get req, Call.list lw.Spec.PodNamespace lw.Spec.PodLabelSelector,
         Call.compile lw.Spec.MatchPattern, Call.logError "Invalid regex pattern" none] := by
    cases hlist : r.List lw.Spec.PodNamespace lw.Spec.PodLabelSelector with
    | error e2 => left; simp [Reconcile, hget, hlist]
    | ok pods => right; simp [Reconcile, hget, hlist, hcomp]
  have htouch : ∀ c ∈ (Reconcile lib r req).calls, touchesInstance c = false := by
    intro c hc
    rcases hcalls with h | h <;> rw [h] at hc <;> simp at hc <;>
      rcases hc with rfl | rfl | rfl | rfl <;> rfl
  have hstore : applyCalls stored (Reconcile lib r req).calls = stored := by
    apply applyCalls_of_no_write
    intro c hc
    rcases hcalls with h | h <;> rw [h] at hc <;> simp at hc <;>
      rcases hc with rfl | rfl | rfl | rfl <;> rfl
  refine ⟨htouch, ?_, hstore, ?_, ?_, ?_, ?_, ?_⟩
  · intro p hp
    have := htouch _ hp
    simp [touchesInstance] at this
  all_goals rw [hstore]

/-- C3 at a concrete run: the pattern `(` does not compile, and the cycle makes
four calls, none on a pod. -/
theorem Reconcile_invalid_pattern_evaluates_nothing_witness :
    literalRegexp.Compile "(" = .error (.other "error parsing regexp") ∧
    (Reconcile literalRegexp brokenCluster watcherKey).calls =
      [Call.get watcherKey, Call.list "prod" [("app", "web")], Call.compile "(",
       Call.logError "Invalid regex pattern" none] ∧
    (∀ c ∈ (Reconcile literalRegexp brokenCluster watcherKey).calls,
      touchesInstance c = false) :=
  ⟨rfl, by decide,
   (Reconcile_invalid_pattern_evaluates_nothing literalRegexp brokenCluster watcherKey
      brokenWatcher brokenWatcher (.other "error parsing regexp") rfl rfl).1⟩

/-- C4, as stated, fails: the pattern `(` does not compile, the LogWatcher is
read, the pods cannot be listed, and `Reconcile` returns the list error. -/
theorem Reconcile_invalid_pattern_list_error :
    brokenListCluster.Get watcherKey = .ok brokenWatcher ∧
    literalRegexp.Compile brokenWatcher.Spec.MatchPattern =
      .error (.other "error parsing regexp") ∧
    (Reconcile literalRegexp brokenListCluster watcherKey).err = some Err.timeout :=
  ⟨rfl, rfl, by decide⟩

/-- C4, amended.  In a cycle that reads the LogWatcher and lists the pods, if
the pattern does not compile then `Reconcile` returns a nil error and the empty
result: no requeue and no requeue delay. -/
theorem Reconcile_invalid_pattern_no_requeue (lib : RegexpLib) (r : Client)
    (req : ObjectKey) (lw : LogWatcher) (pods : List Pod) (e : Err)
    (hget : r.Get req = .ok lw)
    (hlist : r.List lw.Spec.PodNamespace lw.Spec.PodLabelSelector = .ok pods)
    (hcomp : lib.Compile lw.Spec.MatchPattern = .error e) :
    (Reconcile lib r req).err = none ∧
    (Reconcile lib r req).result = { Requeue := false, RequeueAfter := 0 } := by
  simp [Reconcile, hget, hlist, hcomp]

/-- C4, amended, at a concrete run of the pattern `(`. -/
theorem Reconcile_invalid_pattern_no_requeue_witness :
    (Reconcile literalRegexp brokenCluster watcherKey).err = none ∧
    (Reconcile literalRegexp brokenCluster watcherKey).result =
      { Requeue := false, RequeueAfter := 0 } :=
  Reconcile_invalid_pattern_no_requeue literalRegexp brokenCluster watcherKey brokenWatcher
    [podA, podB] (.other "error parsing regexp") rfl rfl rfl

/-! ## Cycle-fatal errors -/

/-- C5, as stated, fails: the LogWatcher is read, the pods cannot be listed, and
`Reconcile` returns the list error. -/
theorem Reconcile_list_error_is_returned :
    listFailsCluster.Get watcherKey = .ok oomWatcher ∧
    (Reconcile literalRegexp listFailsCluster watcherKey).err =
      some (Err.other "connection refused") :=
  ⟨rfl, by decide⟩

/-- C5, amended.  `Reconcile` returns the error `e` exactly when reading the
LogWatcher failed with `e` and `e` is not a not-found error, or the LogWatcher
was read and listing the pods failed with `e`.  No failure to compile the
pattern, to get a pod, to fetch its logs or to delete it makes `Reconcile`
return an error. -/
theorem Reconcile_error_iff (lib : RegexpLib) (r : Client) (req : ObjectKey) (e : Err) :
    (Reconcile lib r req).err = some e ↔
      (r.Get req = .error e ∧ IsNotFound e = false) ∨
      (∃ lw : LogWatcher, r.Get req = .ok lw ∧
        r.List lw.Spec.PodNamespace lw.Spec.PodLabelSelector = .error e) := by
  cases hget : r.Get req with
  | error e1 =>
    cases hnf : IsNotFound e1 with
    | true =>
      simp only [Reconcile, hget, hnf]
      constructor
      · intro h; simp at h
      · rintro (⟨h1, h2⟩ | ⟨lw, h1, _⟩)
        · cases h1; rw [hnf] at h2; cases h2
        · cases h1
    | false =>
      simp only [Reconcile, hget, hnf]
      constructor
      · intro h
        simp at h
        subst h
        exact Or.inl ⟨rfl, hnf⟩
      · rintro (⟨h1, _⟩ | ⟨lw, h1, _⟩)
        · cases h1; simp
        · cases h1
  | ok lw =>
    cases hlist : r.List lw.Spec.PodNamespace lw.Spec.PodLabelSelector with
    | error e2 =>
      simp only [Reconcile, hget, hlist]
      constructor
      · intro h
        simp at h
        subst h
        exact Or.inr ⟨lw, rfl, hlist⟩
      · rintro (⟨h1, _⟩ | ⟨lw2, h1, h2⟩)
        · cases h1
        · cases h1; rw [hlist] at h2; cases h2; rfl
    | ok pods =>
      cases hcomp : lib.Compile lw.Spec.MatchPattern with
      | error e3 =>
        simp only [Reconcile, hget, hlist, hcomp]
        constructor
        · intro h; simp at h
        · rintro (⟨h1, _⟩ | ⟨lw2, h1, h2⟩)
          · cases h1
          · cases h1; rw [hlist] at h2; cases h2
      | ok pattern =>
        simp only [Reconcile, hget, hlist, hcomp]
        constructor
        · intro h; simp at h
        · rintro (⟨h1, _⟩ | ⟨lw2, h1, h2⟩)
          · cases h1
          · cases h1; rw [hlist] at h2; cases h2

/-- C5, amended, at a concrete run: a failed log fetch and a pattern that does
not compile return no error, a failed listing returns its error. -/
theorem Reconcile_error_iff_witness :
    (Reconcile literalRegexp timeoutCluster watcherKey).err = none ∧
    (Reconcile literalRegexp brokenCluster watcherKey).err = none ∧
    (Reconcile literalRegexp listFailsCluster watcherKey).err =
      some (Err.other "connection refused") :=
  ⟨by decide, by decide,
   (Reconcile_error_iff literalRegexp listFailsCluster watcherKey
      (.other "connection refused")).mpr (Or.inr ⟨oomWatcher, rfl, rfl⟩)⟩

/-! ## Restarts across cycles -/

theorem deleted_reconcilePod (lib : RegexpLib) (r : Client) (pattern : lib.Regexp)
    (pod : Pod) :
    (reconcilePod lib r pattern pod).filterMap deleted =
      (restartOf lib r pattern pod).toList := by
  unfold reconcilePod restartOf getRecentLogs
  simp only []
  cases hg : r.GetPod { Name := pod.Name, Namespace := pod.Namespace } with
  | error e => simp [deleted]
  | ok p =>
    cases hst : r.Stream (logRequest p) with
    | error e => simp [deleted, hst]
    | ok stream =>
      cases hs : stream.err with
      | some e => simp [deleted, hst, hs]
      | none =>
        by_cases hm : lib.MatchString pattern (String.intercalate "\n" stream.lines) = true
        · cases hd : r.Delete p <;> simp [deleted, hst, hs, hm, hd]
        · simp [deleted, hst, hs, hm]

theorem deleted_reconcilePods (lib : RegexpLib) (r : Client) (pattern : lib.Regexp)
    (pods : List Pod) :
    (reconcilePods lib r pattern pods).filterMap deleted =
      pods.filterMap (restartOf lib r pattern) := by
  induction pods with
  | nil => rfl
  | cons x xs ih =>
    simp only [reconcilePods, List.filterMap_append, ih, deleted_reconcilePod]
    cases h : restartOf lib r pattern x <;> simp [List.filterMap_cons, h]

/-- C6, as stated, fails: `web-a` logs the pattern in two consecutive cycles,
the first cycle attempts its Delete, which fails, and the second cycle attempts
the Delete again. -/
theorem Reconcile_deletes_again_next_cycle :
    Call.delete podA ∈ (Reconcile literalRegexp deleteFailsCluster watcherKey).calls ∧
    (callsOfCycles literalRegexp
        [(deleteFailsCluster, watcherKey), (deleteFailsCluster, watcherKey)]).filterMap deleted =
      [podA, podA] :=
  ⟨by decide, by decide⟩

/-- C6, amended.  The Deletes of two consecutive cycles are those of the first
cycle followed by one Delete for each pod listed in the second cycle whose Get
and log fetch succeed and whose logs match, whatever the first cycle attempted:
a cycle attempts the Delete at most once per listed pod, and a match that recurs
in the next cycle is deleted again. -/
theorem Reconcile_deletes_per_cycle (lib : RegexpLib) (first second : Client)
    (req : ObjectKey) (lw : LogWatcher) (pods : List Pod) (pattern : lib.Regexp)
    (hget : second.Get req = .ok lw)
    (hlist : second.List lw.Spec.PodNamespace lw.Spec.PodLabelSelector = .ok pods)
    (hcomp : lib.Compile lw.Spec.MatchPattern = .ok pattern) :
    (callsOfCycles lib [(first, req), (second, req)]).filterMap deleted =
      (Reconcile lib first req).calls.filterMap deleted ++
        pods.filterMap (restartOf lib second pattern) ∧
    ((Reconcile lib second req).calls.filterMap deleted).length ≤ pods.length := by
  have hrun := Reconcile_completes lib second req lw pods pattern hget hlist hcomp
  have hdel : (Reconcile lib second req).calls.filterMap deleted =
      pods.filterMap (restartOf lib second pattern) := by
    rw [hrun]
    simp [List.filterMap_append, deleted_reconcilePods, deleted]
  refine ⟨?_, ?_⟩
  · simp only [callsOfCycles, List.filterMap_append, List.append_nil, hdel]
  · rw [hdel]
    exact List.length_filterMap_le _ _

/-- C6, amended, at a concrete run: two cycles, two Deletes of `web-a`. -/
theorem Reconcile_deletes_per_cycle_witness :
    (callsOfCycles literalRegexp
        [(deleteFailsCluster, watcherKey), (deleteFailsCluster, watcherKey)]).filterMap deleted =
      (Reconcile literalRegexp deleteFailsCluster watcherKey).calls.filterMap deleted ++
        [podA].filterMap (restartOf literalRegexp deleteFailsCluster "OOMKilled") ∧
    [podA].filterMap (restartOf literalRegexp deleteFailsCluster "OOMKilled") = [podA] :=
  ⟨(Reconcile_deletes_per_cycle literalRegexp deleteFailsCluster deleteFailsCluster watcherKey
      oomWatcher [podA] "OOMKilled" rfl rfl rfl).1,
   by decide⟩

/-! ## Fields of the spec the controller does not read -/

/-- C7 fails on the code: with `restartPod` false, the pod whose logs match is
deleted. -/
theorem Reconcile_deletes_without_restartPod :
    quietWatcher.Spec.Actions.RestartPod = false ∧
    quietCluster.Get watcherKey = .ok quietWatcher ∧
    Call.delete podA ∈ (Reconcile literalRegexp quietCluster watcherKey).calls :=
  ⟨rfl, rfl, by decide⟩

/-- C8 fails on the code: with `reconcileInterval` 30, the next cycle is
requested after 60 s. -/
theorem Reconcile_requeues_after_60s :
    quietWatcher.Spec.ReconcileInterval = 30 ∧
    quietCluster.Get watcherKey = .ok quietWatcher ∧
    (Reconcile literalRegexp quietCluster watcherKey).result.RequeueAfter = 60 * Second ∧
    (Reconcile literalRegexp quietCluster watcherKey).result.RequeueAfter ≠
      quietWatcher.Spec.ReconcileInterval * Second :=
  ⟨rfl, rfl, by decide, by decide⟩

/-- C9 fails on the code: with `tailLines` 50, the log request asks for the last
100 lines. -/
theorem getRecentLogs_asks_100_lines :
    quietWatcher.Spec.TailLines = 50 ∧
    quietCluster.Get watcherKey = .ok quietWatcher ∧
    (logRequest podA).Params.TailLines = some 100 ∧
    Call.stream { Namespace := "prod", Name := "web-a", Resource := "pods",
                  SubResource := "log", Params := { TailLines := some 100 } } ∈
      (Reconcile literalRegexp quietCluster watcherKey).calls :=
  ⟨rfl, rfl, rfl, by decide⟩

/-! ## Status counters -/

theorem reconcilePod_no_write (lib : RegexpLib) (r : Client) (pattern : lib.Regexp)
    (pod : Pod) : ∀ c ∈ reconcilePod lib r pattern pod, writesLogWatcher c = false := by
  intro c hc
  unfold reconcilePod getRecentLogs at hc
  simp only [] at hc
  cases hg : r.GetPod { Name := pod.Name, Namespace := pod.Namespace } with
  | error e =>
    simp [hg] at hc
    subst hc; rfl
  | ok p =>
    cases hst : r.Stream (logRequest p) with
    | error e =>
      simp [hg, hst] at hc
      rcases hc with rfl | rfl | rfl <;> rfl
    | ok stream =>
      cases hs : stream.err with
      | some e =>
        simp [hg, hst, hs] at hc
        rcases hc with rfl | rfl | rfl <;> rfl
      | none =>
        by_cases hm : lib.MatchString pattern (String.intercalate "\n" stream.lines) = true
        · cases hd : r.Delete p with
          | none =>
            simp [hg, hst, hs, hm, hd] at hc
            rcases hc with rfl | rfl | rfl | rfl | rfl <;> rfl
          | some e =>
            simp [hg, hst, hs, hm, hd] at hc
            rcases hc with rfl | rfl | rfl | rfl | rfl | rfl <;> rfl
        · simp [hg, hst, hs, hm] at hc
          rcases hc with rfl | rfl | rfl <;> rfl

theorem reconcilePods_no_write (lib : RegexpLib) (r : Client) (pattern : lib.Regexp)
    (pods : List Pod) : ∀ c ∈ reconcilePods lib r pattern pods, writesLogWatcher c = false := by
  induction pods with
  | nil => intro c hc; cases hc
  | cons x xs ih =>
    intro c hc
    simp only [reconcilePods, List.mem_append] at hc
    rcases hc with h | h
    · exact reconcilePod_no_write lib r pattern x c h
    · exact ih c h

theorem Reconcile_no_write (lib : RegexpLib) (r : Client) (req : ObjectKey) :
    ∀ c ∈ (Reconcile lib r req).calls, writesLogWatcher c = false := by
  intro c hc
  unfold Reconcile at hc
  cases hget : r.Get req with
  | error e =>
    cases hnf : IsNotFound e <;> simp [hget, hnf] at hc <;> subst hc <;> rfl
  | ok lw =>
    cases hlist : r.List lw.Spec.PodNamespace lw.Spec.PodLabelSelector with
    | error e =>
      simp [hget, hlist] at hc
      rcases hc with rfl | rfl <;> rfl
    | ok pods =>
      cases hcomp : lib.Compile lw.Spec.MatchPattern with
      | error e =>
        simp [hget, hlist, hcomp] at hc
        rcases hc with rfl | rfl | rfl | rfl <;> rfl
      | ok pattern =>
        simp [hget, hlist, hcomp] at hc
        rcases hc with rfl | rfl | rfl | h
        · rfl
        · rfl
        · rfl
        · exact reconcilePods_no_write lib r pattern pods c h

theorem runCycles_eq (lib : RegexpLib) (cycles : List (Client × ObjectKey))
    (stored : LogWatcher) : runCycles lib cycles stored = stored := by
  induction cycles generalizing stored with
  | nil => rfl
  | cons x xs ih =>
    obtain ⟨r, req⟩ := x
    simp only [runCycles]
    rw [applyCalls_of_no_write stored _ (Reconcile_no_write lib r req)]
    exact ih stored

/-- C10.  After any sequence of reconcile cycles, whatever the API server
answered in each, every status counter of the stored LogWatcher is at least
what it was before the sequence. -/
theorem Reconcile_counters_never_decrease (lib : RegexpLib)
    (cycles : List (Client × ObjectKey)) (stored : LogWatcher) :
    stored.Status.MatchesCount ≤ (runCycles lib cycles stored).Status.MatchesCount ∧
    stored.Status.PodsRestarted ≤ (runCycles lib cycles stored).Status.PodsRestarted ∧
    stored.Status.AlertsSent ≤ (runCycles lib cycles stored).Status.AlertsSent ∧
    stored.Status.JobsCreated ≤ (runCycles lib cycles stored).Status.JobsCreated ∧
    stored.Status.ScalingEvents ≤ (runCycles lib cycles stored).Status.ScalingEvents := by
  rw [runCycles_eq]
  exact ⟨le_refl _, le_refl _, le_refl _, le_refl _, le_refl _⟩

end KubeController
